import Mathlib

/-!
Verification of the wine-resolution core of the `wineapp` backend.

The Python sources embedded here are
`src/backend/src/crawler/wine_searcher.py` (page cache, search-URL
composition, page/offer parsing) and `src/backend/src/wines/service.py`
(catalog matcher, fusion merge, alias bookkeeping, resolution
orchestrator).  Strings are modelled as `List Char` (Python `str` is a
sequence of characters); CPython string primitives (`strip`, `split`,
`replace`, `float`, `int`, regular-expression scanning) are given
executable models below, faithful to CPython semantics on the inputs
that arise in this code (plain decimal literals, ASCII percent
escapes).  Raised exceptions are modelled by `Option`/`none` at the
boundary where the source catches them.
-/

namespace WineApp

/-- Python whitespace characters recognised by `str.strip()` / `\s`
(ASCII subset, which is all that occurs in this code). -/
def isPySpace (c : Char) : Bool :=
  c = ' ' ∨ c = '\t' ∨ c = '\n' ∨ c = '\r' ∨ c = '\x0b' ∨ c = '\x0c'

/-- Model of Python `str.strip()`: drop whitespace from both ends. -/
def pyStrip (s : List Char) : List Char :=
  ((s.dropWhile isPySpace).reverse.dropWhile isPySpace).reverse

/-- `pyStrip` on `String`. -/
def pyStripStr (s : String) : String :=
  ⟨pyStrip s.data⟩

/-- Model of Python `str.split(sep)` for a one-character separator:
always returns at least one (possibly empty) chunk. -/
def splitOnChar (sep : Char) : List Char → List (List Char)
  | [] => [[]]
  | c :: cs =>
    if c = sep then [] :: splitOnChar sep cs
    else
      match splitOnChar sep cs with
      | [] => [[c]]
      | l :: ls => (c :: l) :: ls

/-- Model of Python `sep.join(chunks)` for a one-character separator. -/
def joinChar (sep : Char) : List (List Char) → List Char
  | [] => []
  | [l] => l
  | l :: ls => l ++ sep :: joinChar sep ls

/-- Fuel-driven worker for `pyReplace`; `fuel = s.length` always
suffices because every step consumes at least one character. -/
def pyReplaceAux : Nat → List Char → List Char → List Char → List Char
  | 0, s, _, _ => s
  | _ + 1, [], _, _ => []
  | fuel + 1, c :: cs, pat, repl =>
    if pat ≠ [] ∧ pat.isPrefixOf (c :: cs) then
      repl ++ pyReplaceAux fuel ((c :: cs).drop pat.length) pat repl
    else
      c :: pyReplaceAux fuel cs pat repl

/-- Model of Python `s.replace(pat, repl)`: replaces the leftmost
non-overlapping occurrences of `pat`, scanning left to right and
resuming after each replacement (occurrences formed by splicing the
surrounding text back together are not replaced). -/
def pyReplace (s pat repl : List Char) : List Char :=
  pyReplaceAux s.length s pat repl

/-- `pyReplace` on `String`. -/
def pyReplaceStr (s pat repl : String) : String :=
  ⟨pyReplace s.data pat.data repl.data⟩

/-- Worker for `pySplitWs`, accumulating the current word reversed. -/
def pySplitWsAux : List Char → List Char → List (List Char)
  | [], acc => if acc = [] then [] else [acc.reverse]
  | c :: cs, acc =>
    if isPySpace c then
      if acc = [] then pySplitWsAux cs []
      else acc.reverse :: pySplitWsAux cs []
    else pySplitWsAux cs (c :: acc)

/-- Model of Python no-argument `str.split()`: split on whitespace
runs, dropping empty chunks (whitespace-only input gives `[]`). -/
def pySplitWs (s : List Char) : List (List Char) :=
  pySplitWsAux s []

/-- Digit run to number. -/
def digitsToNat (s : List Char) : Nat :=
  s.foldl (fun n c => n * 10 + (c.toNat - '0'.toNat)) 0

/-- Model of Python `int(s)` (plain decimal literals with an optional
sign and surrounding whitespace; `none` models the raised
`ValueError`). -/
def pyInt (s : String) : Option Int :=
  let t := pyStrip s.data
  match t with
  | '+' :: rest =>
    if rest ≠ [] ∧ rest.all Char.isDigit then some (digitsToNat rest : Int) else none
  | '-' :: rest =>
    if rest ≠ [] ∧ rest.all Char.isDigit then some (-(digitsToNat rest : Int)) else none
  | _ =>
    if t ≠ [] ∧ t.all Char.isDigit then some (digitsToNat t : Int) else none

/-- Model of Python `float(s)` on plain decimal literals (optional
sign, digits with an optional decimal point, surrounding whitespace) —
the only shapes that occur in the scraped price texts.  Values are
represented exactly as rationals; `none` models the raised
`ValueError`. -/
def pyFloat (s : String) : Option Rat :=
  let t := pyStrip s.data
  let sign : Rat := if t.head? = some '-' then -1 else 1
  let t := match t with
    | '+' :: r => r
    | '-' :: r => r
    | r => r
  match splitOnChar '.' t with
  | [ip] =>
    if ip ≠ [] ∧ ip.all Char.isDigit then some (sign * (digitsToNat ip : Rat)) else none
  | [ip, fp] =>
    if (ip ≠ [] ∨ fp ≠ []) ∧ ip.all Char.isDigit ∧ fp.all Char.isDigit then
      some (sign * ((digitsToNat ip : Rat) + (digitsToNat fp : Rat) / ((10 : Rat) ^ fp.length)))
    else none
  | _ => none

/-- Hex digit value, for percent decoding. -/
def hexVal (c : Char) : Option Nat :=
  if c.isDigit then some (c.toNat - '0'.toNat)
  else if 'a' ≤ c ∧ c ≤ 'f' then some (c.toNat - 'a'.toNat + 10)
  else if 'A' ≤ c ∧ c ≤ 'F' then some (c.toNat - 'A'.toNat + 10)
  else none

/-- Fuel-driven worker for `pyUnquote`. -/
def pyUnquoteAux : Nat → List Char → List Char
  | 0, s => s
  | _ + 1, [] => []
  | fuel + 1, '%' :: a :: b :: rest =>
    match hexVal a, hexVal b with
    | some x, some y => Char.ofNat (16 * x + y) :: pyUnquoteAux fuel rest
    | _, _ => '%' :: pyUnquoteAux fuel (a :: b :: rest)
  | fuel + 1, c :: cs => c :: pyUnquoteAux fuel cs

/-- Model of `urllib.parse.unquote` restricted to ASCII percent
escapes (invalid escapes are left untouched, as in CPython). -/
def pyUnquote (s : String) : String :=
  ⟨pyUnquoteAux s.data.length s.data⟩

/-! ## Page cache (`save_to_cache` / `load_from_cache`)

`save_to_cache` writes `f"<!-- URL: {url} -->\n"` followed by the
markup into the cache file; `load_from_cache` reads the file back and,
when the content starts with `"<!-- URL:"`, drops the first line via
`"\n".join(content.split("\n")[1:])`.  The models below are those two
functions at the level of the file content. -/

/-- Content written to the cache file by `save_to_cache url html`. -/
def save_to_cache (url html : List Char) : List Char :=
  "<!-- URL: ".data ++ url ++ " -->".data ++ '\n' :: html

/-- Content returned by `load_from_cache` given the cache-file
content: the leading `<!-- URL:` comment line is stripped. -/
def load_from_cache (content : List Char) : List Char :=
  if "<!-- URL:".data.isPrefixOf content then
    joinChar '\n' (splitOnChar '\n' content).tail
  else content

/-- Contiguous-substring test (Python `in` on strings), as a Bool. -/
def isSubstr (a b : List Char) : Bool :=
  decide (a <:+: b)

/-! ## Search-URL composition (`compose_search_url`)

`compose_search_url` extracts a four-digit year from the keyword when
no vintage argument was supplied (`re.search(r"(\d{4})", keyword)`,
then `re.sub(r"(\d{4})", "", keyword).strip()`), replaces the
characters of the class `[,\.\(\)&]` with spaces, collapses whitespace
runs to single hyphens (`re.sub(r"\s+", "-", keyword_for_url.strip())`),
collapses repeated hyphens, and assembles the URL. -/

/-- Regex step `\d{4}` at the current position: the four-digit token
starting here, if any. -/
def fourDigitsAt : List Char → Option (List Char)
  | a :: b :: c :: d :: _ =>
    if a.isDigit ∧ b.isDigit ∧ c.isDigit ∧ d.isDigit then some [a, b, c, d] else none
  | _ => none

/-- Model of `re.search(r"(\d{4})", s)`: the leftmost four-digit
token. -/
def findFourDigits : List Char → Option (List Char)
  | [] => none
  | c :: cs =>
    match fourDigitsAt (c :: cs) with
    | some m => some m
    | none => findFourDigits cs

/-- Fuel-driven worker for `removeFourDigits`. -/
def removeFourDigitsAux : Nat → List Char → List Char
  | 0, s => s
  | _ + 1, [] => []
  | fuel + 1, c :: cs =>
    match fourDigitsAt (c :: cs) with
    | some _ => removeFourDigitsAux fuel ((c :: cs).drop 4)
    | none => c :: removeFourDigitsAux fuel cs

/-- Model of `re.sub(r"(\d{4})", "", s)`: delete the leftmost
non-overlapping four-digit tokens. -/
def removeFourDigits (s : List Char) : List Char :=
  removeFourDigitsAux s.length s

/-- The character replacement of `re.sub(r"[,\.\(\)&]", " ", ·)`:
comma, period, parentheses and ampersand become spaces. -/
def replaceSpecialChar (c : Char) : Char :=
  if c ∈ [',', '.', '(', ')', '&'] then ' ' else c

/-- Fuel-driven worker for `collapseRuns`. -/
def collapseRunsAux (p : Char → Bool) (out : Char) : Nat → List Char → List Char
  | 0, s => s
  | _ + 1, [] => []
  | fuel + 1, c :: cs =>
    if p c then out :: collapseRunsAux p out fuel (cs.dropWhile p)
    else c :: collapseRunsAux p out fuel cs

/-- Model of `re.sub(r"X+", out, s)` for a character class `X`:
collapse maximal runs of characters satisfying `p` into `out`. -/
def collapseRuns (p : Char → Bool) (out : Char) (s : List Char) : List Char :=
  collapseRunsAux p out s.length s

/-- Python truthiness of the `vintage` argument (`if not vintage`):
`None` and the empty string are falsy. -/
def vintageTruthy : Option String → Bool
  | none => false
  | some s => s ≠ ""

/-- `compose_search_url` from `crawler/wine_searcher.py`. -/
def compose_search_url (keyword : String) (vintage : Option String)
    (country : String) (includeAuction : Bool) : String :=
  let kv : String × Option String :=
    if ¬ vintageTruthy vintage then
      match findFourDigits keyword.data with
      | some m => (pyStripStr ⟨removeFourDigits keyword.data⟩, some (String.mk m))
      | none => (keyword, vintage)
    else (keyword, vintage)
  let kw := String.mk (collapseRuns (fun c => c = '-') '-'
    (collapseRuns isPySpace '-' (pyStrip (kv.1.data.map replaceSpecialChar))))
  let url := "https://www.wine-searcher.com/find/" ++ kw ++ "/"
  let url := if vintageTruthy kv.2 then url ++ kv.2.getD "" ++ "/" else url
  if ¬ includeAuction then
    url ++ country ++ "/-/ndbipe?Xsort_order=p&Xcurrencycode=USD&Xsavecurrency=Y"
  else url

/-- The character replacement as the claim words it (comma, open
parenthesis, close parenthesis and ampersand only — no period); used
to compare the claimed behaviour with the source's. -/
def replaceSpecialCharClaimed (c : Char) : Char :=
  if c ∈ [',', '(', ')', '&'] then ' ' else c

/-- `compose_search_url` as the claim describes it: identical pipeline
but with the claimed replacement set (without the period). -/
def compose_search_url_claimed (keyword : String) (vintage : Option String)
    (country : String) (includeAuction : Bool) : String :=
  let kv : String × Option String :=
    if ¬ vintageTruthy vintage then
      match findFourDigits keyword.data with
      | some m => (pyStripStr ⟨removeFourDigits keyword.data⟩, some (String.mk m))
      | none => (keyword, vintage)
    else (keyword, vintage)
  let kw := String.mk (collapseRuns (fun c => c = '-') '-'
    (collapseRuns isPySpace '-' (pyStrip (kv.1.data.map replaceSpecialCharClaimed))))
  let url := "https://www.wine-searcher.com/find/" ++ kw ++ "/"
  let url := if vintageTruthy kv.2 then url ++ kv.2.getD "" ++ "/" else url
  if ¬ includeAuction then
    url ++ country ++ "/-/ndbipe?Xsort_order=p&Xcurrencycode=USD&Xsavecurrency=Y"
  else url

/-! ## Fusion field-merge (`merge_wine_data`)

Python dicts are modelled as association lists `List (String × Option α)`
with unique keys in insertion order; an entry value `none` is Python
`None`, an absent key is an absent key.  `merge_wine_data` copies the
primary dict and then, for each secondary entry, writes it only when
the key is absent from the merged dict or maps to `None`. -/

/-- Model of `key in d` / `d[key]`: `none` = key absent, `some v` =
key present with value `v` (where `v = none` is Python `None`). -/
def dictLookup {α : Type} (d : List (String × Option α)) (k : String) :
    Option (Option α) :=
  (d.find? (fun e => e.1 == k)).map (·.2)

/-- Model of `d[key] = value`: update the first entry for the key in
place, or append a new entry (dicts keep insertion order). -/
def dictSet {α : Type} : List (String × Option α) → String → Option α →
    List (String × Option α)
  | [], k, v => [(k, v)]
  | e :: rest, k, v =>
    if e.1 = k then (k, v) :: rest else e :: dictSet rest k v

/-- `merge_wine_data` from `wines/service.py`: primary copied, then
each secondary entry written only where the merged dict has no entry
or a `None` entry. -/
def merge_wine_data {α : Type} [DecidableEq α]
    (primary secondary : List (String × Option α)) :
    List (String × Option α) :=
  secondary.foldl
    (fun merged kv =>
      if dictLookup merged kv.1 = none ∨ dictLookup merged kv.1 = some none then
        dictSet merged kv.1 kv.2
      else merged)
    primary

/-! ## Catalog data model (`wines/schemas.py`)

`WineBase` carries the `WineBase` pydantic fields (every field other
than `name` optional with default `None`); `Wine` adds the row id
(timestamps, irrelevant to the claims, are omitted; the `uuid` id is
abstracted to a `Nat`). -/

structure WineBase where
  name : String
  winery : Option String := none
  vintage : Option Int := none
  region : Option String := none
  country : Option String := none
  varietal : Option String := none
  type : Option String := none
  price : Option Rat := none
  rating : Option Int := none
  wine_searcher_url : Option String := none
  average_price : Option Rat := none
  description : Option String := none
  name_alias : Option (List String) := none
  image_url : Option String := none
  wine_searcher_id : Option String := none
  drinking_window : Option String := none
  food_pairings : Option String := none
  abv : Option String := none
  tasting_notes : Option String := none
  winemaker_notes : Option String := none
  professional_reviews : Option String := none
deriving DecidableEq, Repr

structure Wine extends WineBase where
  id : Nat
deriving DecidableEq, Repr

/-- Snapshot offer model (`WineSearcherOffer` pydantic model). -/
structure WineSearcherOffer where
  price : Option Rat := none
  unit_price : Option Rat := none
  description : Option String := none
  seller_name : Option String := none
  url : Option String := none
  seller_address_region : Option String := none
  seller_address_country : Option String := none
  name : Option String := none
deriving DecidableEq, Repr

/-- Snapshot wine model (`WineSearcherWine` pydantic model). -/
structure WineSearcherWine where
  id : String
  wine_searcher_id : Option Int := none
  vintage : Int := 1
  name : Option String := none
  url : Option String := none
  description : Option String := none
  region : Option String := none
  region_image : Option String := none
  origin : Option String := none
  grape_variety : Option String := none
  image : Option String := none
  producer : Option String := none
  average_price : Option Rat := none
  min_price : Option Rat := none
  wine_type : Option String := none
  wine_style : Option String := none
  offers : List WineSearcherOffer := []
  offers_count : Int := 0
deriving DecidableEq, Repr

/-! ## Catalog matcher (`search_wine_from_db`)

The `wines` table is modelled as a `List Wine`.  The three Supabase
queries become three filters over the table: exact `name` equality,
`name_alias` array containment, and case-insensitive substring match
(`ilike "%name%"`); each additionally applies `eq("vintage", vintage)`
when a vintage is given.  Results are combined in the source's order —
exact, then alias, then substring — de-duplicating by row id, and the
first element is returned. -/

/-- The `eq("vintage", str(vintage))` filter: trivially true when no
vintage was supplied. -/
def vintageOk (vintage : Option Int) (w : Wine) : Bool :=
  match vintage with
  | none => true
  | some v => w.vintage = some v

/-- Query 1: exact (case-sensitive) name equality. -/
def exactMatches (db : List Wine) (name : String) (vintage : Option Int) : List Wine :=
  db.filter (fun w => vintageOk vintage w ∧ w.name = name)

/-- Query 3: `contains("name_alias", [name])` — the alias array
contains the search term (a `None` array contains nothing). -/
def aliasMatches (db : List Wine) (name : String) (vintage : Option Int) : List Wine :=
  db.filter (fun w => vintageOk vintage w ∧ name ∈ w.name_alias.getD [])

/-- Query 2: `ilike("name", f"%{name}%")` — case-insensitive substring
match of the search term within the stored name. -/
def substrMatches (db : List Wine) (name : String) (vintage : Option Int) : List Wine :=
  db.filter (fun w => vintageOk vintage w ∧ isSubstr name.toLower.data w.name.toLower.data)

/-- The combination step of `search_wine_from_db`: append an item
unless a result with the same id is already present. -/
def addUnique (acc : List Wine) (item : Wine) : List Wine :=
  if acc.any (fun r => r.id = item.id) then acc else acc ++ [item]

/-- `search_wine_from_db` from `wines/service.py`: run the three
lookups, combine exact → alias → substring with id de-duplication,
return the first combined result (or `none`). -/
def search_wine_from_db (db : List Wine) (name : String) (vintage : Option Int) :
    Option Wine :=
  let all0 := exactMatches db name vintage
  let all1 := (aliasMatches db name vintage).foldl addUnique all0
  let all2 := (substrMatches db name vintage).foldl addUnique all1
  all2.head?

/-! ## Snapshot-to-catalog conversion (`convert_wine_searcher_to_wine`)

`none` as the result models the exceptions the source raises when the
snapshot name is `None` (`str(vintage) in None` raises `TypeError`;
`Wine(name=None, ...)` fails pydantic validation) — `convert` has no
handler for either. -/

/-- The last chunk of `s.split(sep)`. -/
def lastSplit (sep : Char) (s : String) : String :=
  String.mk ((splitOnChar sep s.data).getLastD [])

/-- The vintage-stripping step of `convert_wine_searcher_to_wine`:
when the vintage is truthy and its decimal string occurs in the name,
`name.replace(f"{v} ", "").replace(f"{v}", "").strip()`. -/
def stripVintageFromName (vintage : Int) (name : String) : String :=
  if vintage ≠ 0 ∧ isSubstr (toString vintage).data name.data then
    pyStripStr (pyReplaceStr (pyReplaceStr name (toString vintage ++ " ") "") (toString vintage) "")
  else name

/-- The country-derivation step: the substring after the last comma of
`origin`, stripped; the whole stripped string when no comma; `None`
when `origin` is falsy. -/
def originToCountry : Option String → Option String
  | none => none
  | some o =>
    if o = "" then none
    else if isSubstr ",".data o.data then some (pyStripStr (lastSplit ',' o))
    else some (pyStripStr o)

/-- `convert_wine_searcher_to_wine` from `wines/service.py` (the fresh
`uuid4` row id is abstracted to the `newId` argument). -/
def convert_wine_searcher_to_wine (ws : WineSearcherWine) (newId : Nat) : Option Wine :=
  match ws.name with
  | none => none
  | some name0 =>
    some { id := newId
           name := stripVintageFromName ws.vintage name0
           region := ws.region
           country := originToCountry ws.origin
           winery := ws.producer
           vintage := some ws.vintage
           type := ws.wine_type
           varietal := ws.grape_variety
           image_url := ws.image
           average_price := ws.average_price
           description := ws.description
           wine_searcher_id := some ws.id
           wine_searcher_url := ws.url }

/-! ## Creation and resolution (`create_wine`, `search_wine`) -/

/-- Python truthiness of an optional string
(`wine_data.get("wine_searcher_id")`). -/
def strOptTruthy : Option String → Bool
  | none => false
  | some s => s ≠ ""

/-- Build the stored row from create-data and a row id. -/
def mkWine (wc : WineBase) (id : Nat) : Wine :=
  { toWineBase := wc, id := id }

/-- `create_wine` from `wines/service.py`: when the create-data has a
truthy `wine_searcher_id` and a row with that id exists, update that
row (all fields overwritten, id kept); otherwise insert a new row with
a fresh id. -/
def create_wine (wc : WineBase) (db : List Wine) (newId : Nat) : Wine :=
  if strOptTruthy wc.wine_searcher_id then
    match db.find? (fun w => w.wine_searcher_id == wc.wine_searcher_id) with
    | some existing => mkWine wc existing.id
    | none => mkWine wc newId
  else mkWine wc newId

/-- The alias-bookkeeping step of `search_wine` (lines 494–516): when
the resolved record's display name differs from the query, append the
query to the alias list (initialised to `[]` when `None`) unless it is
already present; otherwise leave the list unchanged. -/
def alias_update (existingName : String) (aliases : Option (List String))
    (query : String) : List String :=
  if existingName ≠ query then
    if query ∈ aliases.getD [] then aliases.getD []
    else aliases.getD [] ++ [query]
  else aliases.getD []

/-- `search_wine` from `wines/service.py`, the resolution entry point.
The `wines` table is the `db` argument; `wsResult` is what
`fetch_wine` returned (`none` = not found, fetch error, or parse
failure); `newId` abstracts the generated row id.  A `none` result
models an uncaught exception (only possible via
`convert_wine_searcher_to_wine` on a nameless snapshot); every normal
path returns a record.  The alias update persisted for an existing
record uses `alias_update` on that record's name and alias list. -/
def search_wine (db : List Wine) (wsResult : Option WineSearcherWine)
    (wineName : String) (vintage : Option Int) (newId : Nat) : Option Wine :=
  match search_wine_from_db db wineName vintage with
  | some w => some w
  | none =>
    match wsResult with
    | some ws =>
      match db.find? (fun w => w.wine_searcher_id == some ws.id) with
      | some existingWine => some existingWine
      | none =>
        match convert_wine_searcher_to_wine ws newId with
        | none => none
        | some wineModel =>
          let wc : WineBase :=
            if wineModel.name ≠ wineName then
              { wineModel.toWineBase with
                name_alias := some (alias_update wineModel.name wineModel.name_alias wineName) }
            else wineModel.toWineBase
          some (create_wine wc db newId)
    | none => some (create_wine { name := wineName, vintage := vintage } db newId)

/-! ## Offer parsing (`parse_offers_html`)

An offer card is modelled by the texts its XPath sub-extractions
yield.  The two indexed lookups
(`offer-card__price-section` `[0]` and `price__detail_main` `[0]`)
raise `IndexError` when the element is missing; they are collapsed
into the single optional `priceDetail` text, since either absence
raises identically.  A raised exception inside the per-card `try`
makes the whole card extraction fail (`none`), and the card is
skipped. -/

structure OfferCard where
  priceDetail : Option String := none
  sellerName : Option String := none
  unitPriceText : Option String := none
  encodedUrl : Option String := none
  location : Option String := none
  countryFlag : Option String := none
  cardDescription : Option String := none
deriving DecidableEq, Repr

/-- `price_str.replace("$", "").replace(",", "")`. -/
def stripCurrency (s : String) : String :=
  pyReplaceStr (pyReplaceStr s "$" "") "," ""

/-- The body of the per-card `try` block of `parse_offers_html`:
`none` models a raised exception (the card is skipped). -/
def parse_offer_card (c : OfferCard) : Option WineSearcherOffer := do
  let priceStr ← c.priceDetail
  let price : Option Rat ←
    if priceStr ≠ "" then (pyFloat (stripCurrency priceStr)).map some
    else some none
  let unitPrice : Option Rat ←
    match c.unitPriceText with
    | none => some price
    | some t =>
      if t ≠ "" then
        (pyFloat (stripCurrency (String.mk ((splitOnChar '/' t.data).headD [])))).map some
      else some none
  let country : Option String ←
    match c.countryFlag with
    | none => some none
    | some f =>
      if f = "" then some none
      else
        match (pySplitWs f.data).getLast? with
        | none => none
        | some tok =>
          some (some (String.mk ((pyReplace tok "icon-flag-".data []).map Char.toUpper)))
  some { price := price
         unit_price := unitPrice
         description := c.cardDescription
         seller_name := c.sellerName
         url := c.encodedUrl.map pyUnquote
         seller_address_region := c.location.map (fun l => pyStripStr (lastSplit ':' l))
         seller_address_country := country
         name := none }

/-- The offers sub-tree: the `auto-expand-card` marker, the summary
count text, and the offer cards.  `parse_offers_html` receives it as
`Option` — `none` models the empty `offers_html` string. -/
structure OffersTree where
  autoExpanded : Bool := false
  countText : Option String := none
  cards : List OfferCard := []
deriving DecidableEq, Repr

/-- `parse_offers_html` from `crawler/wine_searcher.py`.  The outer
`none` result models the uncaught `IndexError`/`ValueError` from
`int(offers_count_element[0].split()[0])` (those propagate to the
caller; only per-card errors are caught). -/
def parse_offers_html (t : Option OffersTree) : Option (List WineSearcherOffer × Int) :=
  match t with
  | none => some ([], 0)
  | some t =>
    if t.autoExpanded then some ([], 0)
    else
      match t.countText with
      | none => some (t.cards.filterMap parse_offer_card, 0)
      | some s =>
        match (pySplitWs s.data).head? with
        | none => none
        | some tok =>
          match pyInt (String.mk tok) with
          | none => none
          | some n => some (t.cards.filterMap parse_offer_card, n)

/-! ## Page parsing (`parse_wine_searcher_html`)

A fetched page is modelled by the texts its XPath extractions yield
(first element of each node-set, `none` when the node-set is empty).
`parse_wine_searcher_html` receives `Option Page`: `none` models a
falsy `html` argument (`if not html: return None`).  A `none` result
also models the outer `except` catching an exception (`int()` on a
non-numeric heading id, or a propagated offers-count error). -/

structure Page where
  headingIdAttr : Option String := none
  headingText : Option String := none
  descriptionTexts : List String := []
  ogUrl : Option String := none
  regionMeta : Option String := none
  originMeta : Option String := none
  imageMeta : Option String := none
  descriptionMeta : Option String := none
  varietalMeta : Option String := none
  styleText : Option String := none
  producerTitle : Option String := none
  offersBlock : Option OffersTree := none
deriving DecidableEq, Repr

/-- Regex step for `/(\d{4})/` at the current position. -/
def matchSlashFour : List Char → Option (List Char)
  | '/' :: a :: b :: c :: d :: '/' :: _ =>
    if a.isDigit ∧ b.isDigit ∧ c.isDigit ∧ d.isDigit then some [a, b, c, d] else none
  | _ => none

/-- Model of `re.search(r"/(\d{4})/", url)`: the group of the leftmost
match. -/
def findSlashFourDigits : List Char → Option (List Char)
  | [] => none
  | c :: cs =>
    match matchSlashFour (c :: cs) with
    | some m => some m
    | none => findSlashFourDigits cs

/-- `str_to_vintage` from `crawler/wine_searcher.py`: falsy input and
the literal `"All"` map to the sentinel `1`; anything else is parsed
with `int()` (a `none` result models the raised `ValueError`). -/
def str_to_vintage (s : Option String) : Option Int :=
  match s with
  | none => some 1
  | some s =>
    if s = "" then some 1
    else if s = "All" then some 1
    else pyInt s

/-- `_extract_average_price`: text after the first `$`, before the
following `/`, stripped, thousands separators removed, parsed as a
number; every failure is caught and yields `none`. -/
def _extract_average_price (s : String) : Option Rat :=
  match splitOnChar '$' s.data with
  | _ :: second :: _ =>
    pyFloat ⟨pyReplace (pyStrip ((splitOnChar '/' second).headD [])) ",".data []⟩
  | _ => none

/-- First occurrence split, model of `s.split(pat, 1)` restricted to
the case where `pat` occurs: `some (before, after)` iff `pat` occurs
in `s`. -/
def splitFirst (pat : List Char) : List Char → Option (List Char × List Char)
  | [] => none
  | c :: cs =>
    if pat.isPrefixOf (c :: cs) then some ([], (c :: cs).drop pat.length)
    else
      match splitFirst pat cs with
      | some pr => some (c :: pr.1, pr.2)
      | none => none

/-- The description assembly:
`" ".join(el.strip() for el in elements if el.strip()) if elements else None`. -/
def _extract_description (texts : List String) : Option String :=
  if texts = [] then none
  else some (String.intercalate " " ((texts.map pyStripStr).filter (· ≠ "")))

/-- Python `f"{x}"` on an optional int: `None` prints as `"None"`. -/
def pyFormatOptInt : Option Int → String
  | some n => toString n
  | none => "None"

/-- `min((o.unit_price for o in offers if o.unit_price is not None), default=None)`. -/
def minUnitPrice (offers : List WineSearcherOffer) : Option Rat :=
  match offers.filterMap (·.unit_price) with
  | [] => none
  | x :: xs => some (xs.foldl min x)

/-- The external-id extraction: `int(id_str[0]) if id_str else None` —
the outer `none` models the raised `ValueError` of `int()`. -/
def extractHeadingId (attr : Option String) : Option (Option Int) :=
  match attr with
  | none => some none
  | some s => (pyInt s).map some

/-- The vintage extraction from the canonical URL:
`str_to_vintage(vintage_str) if vintage_str else 1` where
`vintage_str` is the group of `re.search(r"/(\d{4})/", og_url)`
(searched only when `og_url` is present). -/
def extractVintage (ogUrl : Option String) : Option Int :=
  match ogUrl.bind (fun u => findSlashFourDigits u.data) with
  | none => some 1
  | some m => if m = [] then some 1 else str_to_vintage (some (String.mk m))

/-- The style split: `style_text.split(" - ", 1)` into (type, style)
when `style_text` is truthy and contains `" - "`; otherwise both nil. -/
def extractStylePair (styleText : Option String) : Option (String × String) :=
  match styleText with
  | some t =>
    if t ≠ "" then
      (splitFirst " - ".data t.data).map (fun pr => (String.mk pr.1, String.mk pr.2))
    else none
  | none => none

/-- `parse_wine_searcher_html` from `crawler/wine_searcher.py`; the
nested matches propagate the exceptions that escape to the outer
`except` handler, which returns `None`. -/
def parse_wine_searcher_html (p : Option Page) : Option WineSearcherWine :=
  match p with
  | none => none
  | some p =>
    match extractHeadingId p.headingIdAttr with
    | none => none
    | some wineSearcherId =>
      match extractVintage p.ogUrl with
      | none => none
      | some vintage =>
        match parse_offers_html p.offersBlock with
        | none => none
        | some offersRes =>
          some { id := pyFormatOptInt wineSearcherId ++ "_" ++ toString vintage
                 wine_searcher_id := wineSearcherId
                 vintage := vintage
                 name := p.headingText.map pyStripStr
                 url := p.ogUrl
                 description := _extract_description p.descriptionTexts
                 region := p.regionMeta
                 region_image := none
                 origin := p.originMeta
                 grape_variety := p.varietalMeta
                 image := p.imageMeta
                 producer := p.producerTitle.map
                   (fun t => pyReplaceStr t "More information about " "")
                 average_price :=
                   if strOptTruthy p.descriptionMeta then
                     _extract_average_price (p.descriptionMeta.getD "")
                   else none
                 min_price := minUnitPrice offersRes.1
                 wine_type := (extractStylePair p.styleText).map (·.1)
                 wine_style := (extractStylePair p.styleText).map (·.2)
                 offers := offersRes.1
                 offers_count := offersRes.2 }

/-! ## Theorems -/

/-! ### C9 — cache round-trip -/

lemma splitOnChar_ne_nil (sep : Char) : ∀ s, splitOnChar sep s ≠ []
  | [] => by simp [splitOnChar]
  | c :: cs => by
    simp only [splitOnChar]
    by_cases h : c = sep
    · simp [h]
    · simp only [if_neg h]
      cases hs : splitOnChar sep cs <;> simp

lemma joinChar_splitOnChar (sep : Char) : ∀ s, joinChar sep (splitOnChar sep s) = s := by
  intro s
  induction s with
  | nil => rfl
  | cons c cs ih =>
    by_cases h : c = sep
    · subst h
      simp only [splitOnChar, if_pos rfl]
      cases hs : splitOnChar c cs with
      | nil => exact absurd hs (splitOnChar_ne_nil _ _)
      | cons l ls =>
        rw [hs] at ih
        simpa [joinChar] using ih
    · simp only [splitOnChar, if_neg h]
      cases hs : splitOnChar sep cs with
      | nil => exact absurd hs (splitOnChar_ne_nil _ _)
      | cons l ls =>
        rw [hs] at ih
        cases ls with
        | nil =>
          simp only [joinChar] at ih ⊢
          rw [ih]
        | cons l2 ls2 =>
          simp only [joinChar] at ih ⊢
          rw [List.cons_append, ih]

lemma splitOnChar_append_cons (sep : Char) (a b : List Char) (h : sep ∉ a) :
    splitOnChar sep (a ++ sep :: b) = a :: splitOnChar sep b := by
  induction a with
  | nil => simp [splitOnChar]
  | cons c a ih =>
    have hc : ¬ c = sep := fun e => h (e ▸ List.mem_cons_self c a)
    have ha : sep ∉ a := fun hm => h (List.mem_cons_of_mem _ hm)
    simp only [List.cons_append, splitOnChar, if_neg hc, List.append_eq, ih ha]

/-- C9 (amended): for every URL that contains no newline character and
every markup string `h`, loading the cache content written for `(u, h)`
returns exactly `h`: the leading `<!-- URL: ... -->` comment line is
stripped and no other character of `h` is altered, including when `h`
contains newlines or itself begins with `<!-- URL:`. -/
theorem cache_roundtrip (url html : List Char) (h : '\n' ∉ url) :
    load_from_cache (save_to_cache url html) = html := by
  have hassoc : save_to_cache url html =
      ("<!-- URL: ".data ++ url ++ " -->".data) ++ '\n' :: html := by
    simp [save_to_cache, List.append_assoc]
  have hnomem : '\n' ∉ "<!-- URL: ".data ++ url ++ " -->".data := by
    intro hm
    rcases List.mem_append.1 hm with hm | hm
    · rcases List.mem_append.1 hm with hm | hm
      · revert hm; decide
      · exact h hm
    · revert hm; decide
  have hpre : "<!-- URL:".data.isPrefixOf (save_to_cache url html) = true := by
    rw [List.isPrefixOf_iff_prefix]
    have h1 : "<!-- URL:".data <+: "<!-- URL: ".data := by decide
    have h2 : "<!-- URL: ".data <+: save_to_cache url html := by
      refine ⟨url ++ " -->".data ++ '\n' :: html, ?_⟩
      simp [save_to_cache, List.append_assoc]
    exact h1.trans h2
  rw [load_from_cache, if_pos hpre, hassoc, splitOnChar_append_cons _ _ _ hnomem]
  simp [joinChar_splitOnChar]

/-- C9 (witness): round trip at a concrete URL and markup. -/
theorem cache_roundtrip_witness :
    load_from_cache (save_to_cache "http://x".data "<html>".data) = "<html>".data :=
  cache_roundtrip "http://x".data "<html>".data (by decide)

/-- C9 (counterexample): for a URL containing a newline the round trip
returns a different string — the claim's unrestricted quantification
over URLs fails. -/
theorem cache_roundtrip_newline_cex :
    load_from_cache (save_to_cache ("a" ++ "\n" ++ "b").data "x".data) =
      ("b -->" ++ "\n" ++ "x").data ∧
    ("b -->" ++ "\n" ++ "x").data ≠ "x".data := by
  constructor
  · decide
  · decide

/-! ### C4 — search-URL composition -/

/-- C4 (amended): the composer strips a four-digit year from the query
when no vintage is supplied and uses it as the vintage; it replaces
exactly the characters comma, period, open parenthesis, close
parenthesis and ampersand with spaces, collapses whitespace runs to
single hyphens, collapses repeated hyphens, appends the vintage
segment and the country plus the fixed ascending-price USD suffix; in
particular the claim's concrete example composes as stated. -/
theorem compose_search_url_spec :
    (∀ c : Char,
      (c ∈ [',', '.', '(', ')', '&'] → replaceSpecialChar c = ' ') ∧
      (c ∉ [',', '.', '(', ')', '&'] → replaceSpecialChar c = c)) ∧
    compose_search_url "Château Lafite (2015)" none "usa" false =
      "https://www.wine-searcher.com/find/Château-Lafite/2015/usa/-/ndbipe?Xsort_order=p&Xcurrencycode=USD&Xsavecurrency=Y" := by
  constructor
  · intro c
    constructor
    · intro hc
      simp [replaceSpecialChar, hc]
    · intro hc
      simp [replaceSpecialChar, hc]
  · decide

/-- C4 (witness): the character rules at concrete characters. -/
theorem compose_search_url_spec_witness :
    replaceSpecialChar '.' = ' ' ∧ replaceSpecialChar 'A' = 'A' :=
  ⟨(compose_search_url_spec.1 '.').1 (by decide),
   (compose_search_url_spec.1 'A').2 (by decide)⟩

/-- C4 (counterexample): the source also replaces the period (regex
class `[,\.\(\)&]`), so on an input containing `.` the composed URL
differs from the one built with the claim's replacement set
(exactly comma, parentheses, ampersand). -/
theorem compose_search_url_period_cex :
    compose_search_url "Ch. Lafite" none "usa" false ≠
      compose_search_url_claimed "Ch. Lafite" none "usa" false ∧
    compose_search_url "Ch. Lafite" none "usa" false =
      "https://www.wine-searcher.com/find/Ch-Lafite/usa/-/ndbipe?Xsort_order=p&Xcurrencycode=USD&Xsavecurrency=Y" := by
  constructor
  · decide
  · decide

/-! ### C2 — fusion field-merge -/

lemma dictLookup_cons_self {α : Type} (k : String) (v : Option α)
    (d : List (String × Option α)) : dictLookup ((k, v) :: d) k = some v := by
  unfold dictLookup
  rw [List.find?_cons_of_pos]
  · rfl
  · simp

lemma dictLookup_cons_ne {α : Type} (e : String × Option α)
    (d : List (String × Option α)) (k' : String) (h : e.1 ≠ k') :
    dictLookup (e :: d) k' = dictLookup d k' := by
  unfold dictLookup
  rw [List.find?_cons_of_neg]
  simp [h]

lemma dictLookup_dictSet_self {α : Type} (d : List (String × Option α))
    (k : String) (v : Option α) : dictLookup (dictSet d k v) k = some v := by
  induction d with
  | nil => exact dictLookup_cons_self k v []
  | cons e d ih =>
    unfold dictSet
    by_cases h : e.1 = k
    · rw [if_pos h]
      exact dictLookup_cons_self k v d
    · rw [if_neg h]
      rw [dictLookup_cons_ne e _ k h]
      exact ih

lemma dictLookup_dictSet_ne {α : Type} (d : List (String × Option α))
    (k k' : String) (v : Option α) (h : k' ≠ k) :
    dictLookup (dictSet d k v) k' = dictLookup d k' := by
  induction d with
  | nil =>
    unfold dictSet
    exact dictLookup_cons_ne (k, v) [] k' (Ne.symm h)
  | cons e d ih =>
    unfold dictSet
    by_cases he : e.1 = k
    · rw [if_pos he]
      rw [dictLookup_cons_ne (k, v) d k' (Ne.symm h),
        dictLookup_cons_ne e d k' (by rw [he]; exact Ne.symm h)]
    · rw [if_neg he]
      by_cases he' : e.1 = k'
      · unfold dictLookup
        rw [List.find?_cons_of_pos _ (by simp [he']),
          List.find?_cons_of_pos _ (by simp [he'])]
      · rw [dictLookup_cons_ne e _ k' he', dictLookup_cons_ne e d k' he']
        exact ih

lemma merge_lookup_not_mem {α : Type} [DecidableEq α]
    (s : List (String × Option α)) (p : List (String × Option α)) (k : String)
    (h : k ∉ s.map Prod.fst) :
    dictLookup (merge_wine_data p s) k = dictLookup p k := by
  induction s generalizing p with
  | nil => rfl
  | cons e s ih =>
    have hk : e.1 ≠ k := by
      intro hcontra
      exact h (by simp [hcontra.symm])
    have h' : k ∉ s.map Prod.fst := fun hm => h (by simp [hm])
    show dictLookup (merge_wine_data
      (if dictLookup p e.1 = none ∨ dictLookup p e.1 = some none then
        dictSet p e.1 e.2 else p) s) k = dictLookup p k
    rw [ih _ h']
    split
    · exact dictLookup_dictSet_ne p e.1 k e.2 (Ne.symm hk)
    · rfl

/-- C2 (amended): in the fusion field-merge there is no AI-priority
set — for every field (including tasting notes, drinking window,
winemaker notes, professional reviews and food pairings) a non-nil
primary (external-source) value is never overwritten, and the AI value
is used exactly when the field is absent from or nil in the primary
record. -/
theorem merge_wine_data_field_precedence {α : Type} [DecidableEq α]
    (p s : List (String × Option α)) (k : String)
    (hnd : (s.map Prod.fst).Nodup) :
    (∀ v : α, dictLookup p k = some (some v) →
      dictLookup (merge_wine_data p s) k = some (some v)) ∧
    ((dictLookup p k = none ∨ dictLookup p k = some none) →
      dictLookup (merge_wine_data p s) k =
        match dictLookup s k with
        | some w => some w
        | none => dictLookup p k) := by
  induction s generalizing p with
  | nil => exact ⟨fun v hv => hv, fun _ => rfl⟩
  | cons e s ih =>
    obtain ⟨k1, v1⟩ := e
    have hnd1 : (k1 :: s.map Prod.fst).Nodup := by simpa using hnd
    have hnd0 := List.nodup_cons.1 hnd1
    have hmerge : merge_wine_data p ((k1, v1) :: s) = merge_wine_data
        (if dictLookup p k1 = none ∨ dictLookup p k1 = some none then
          dictSet p k1 v1 else p) s := rfl
    by_cases hk : k1 = k
    · subst hk
      constructor
      · intro v hv
        have hcond : ¬ (dictLookup p k1 = none ∨ dictLookup p k1 = some none) := by
          rw [hv]
          simp
        rw [hmerge, if_neg hcond]
        exact (ih p hnd0.2).1 v hv
      · intro hnil
        rw [hmerge, if_pos hnil, merge_lookup_not_mem s _ k1 hnd0.1,
          dictLookup_dictSet_self, dictLookup_cons_self]
    · have hpk : dictLookup
          (if dictLookup p k1 = none ∨ dictLookup p k1 = some none then
            dictSet p k1 v1 else p) k = dictLookup p k := by
        split
        · exact dictLookup_dictSet_ne p k1 k v1 (Ne.symm hk)
        · rfl
      constructor
      · intro v hv
        rw [hmerge]
        exact (ih _ hnd0.2).1 v (by rw [hpk]; exact hv)
      · intro hnil
        rw [hmerge, (ih _ hnd0.2).2 (by rw [hpk]; exact hnil), hpk,
          dictLookup_cons_ne (k1, v1) s k hk]

/-- C2 (witness): the precedence rules at a concrete merge. -/
theorem merge_wine_data_field_precedence_witness :
    dictLookup (merge_wine_data [("abv", some "13")] [("abv", some "14")]) "abv" =
      some (some "13") :=
  (merge_wine_data_field_precedence [("abv", some "13")] [("abv", some "14")]
    "abv" (by decide)).1 "13" (by decide)

/-- C2 (counterexample): `tasting_notes` is one of the claimed
AI-priority fields, yet a non-nil AI value does not overwrite a
non-nil primary value — `merge_wine_data` has no priority set. -/
theorem merge_wine_data_priority_cex :
    dictLookup (merge_wine_data [("tasting_notes", some "scraped note")]
        [("tasting_notes", some "ai note")]) "tasting_notes" =
      some (some "scraped note") ∧
    (some (some "scraped note") : Option (Option String)) ≠ some (some "ai note") := by
  constructor
  · decide
  · decide

/-! ### C8 — alias bookkeeping invariant -/

/-- C8: the alias-bookkeeping step preserves the catalog invariant —
starting from an alias list with no duplicates and no entry equal to
the record's display name, the updated list still has no duplicates
and no entry equal to the display name, and the query ends up in the
list exactly when it differs from the display name or was already
there (so it is appended only when it differs from the display name
and is not already present). -/
theorem alias_update_invariant (nm : String) (al : Option (List String)) (q : String)
    (hnd : (al.getD []).Nodup) (hnm : nm ∉ al.getD []) :
    (alias_update nm al q).Nodup ∧ nm ∉ alias_update nm al q ∧
    (q ∈ alias_update nm al q ↔ q ≠ nm ∨ q ∈ al.getD []) := by
  unfold alias_update
  split_ifs with h1 h2
  · exact ⟨hnd, hnm, by simp [h2]⟩
  · refine ⟨?_, ?_, ?_⟩
    · rw [List.nodup_append]
      exact ⟨hnd, List.nodup_singleton q, by simpa using h2⟩
    · intro hmem
      rcases List.mem_append.1 hmem with hmem | hmem
      · exact hnm hmem
      · exact h1 (by simpa using hmem)
    · exact ⟨fun _ => Or.inl (Ne.symm h1), fun _ => by simp⟩
  · have h1' : nm = q := not_not.1 (by simpa using h1)
    subst h1'
    refine ⟨hnd, hnm, ?_⟩
    simp [hnm]

/-- C8 (witness): the invariant at a concrete update. -/
theorem alias_update_invariant_witness :
    (alias_update "Opus One" (some ["Opus"]) "Opus One Napa").Nodup ∧
    "Opus One" ∉ alias_update "Opus One" (some ["Opus"]) "Opus One Napa" ∧
    ("Opus One Napa" ∈ alias_update "Opus One" (some ["Opus"]) "Opus One Napa" ↔
      "Opus One Napa" ≠ "Opus One" ∨ "Opus One Napa" ∈ ["Opus"]) :=
  alias_update_invariant "Opus One" (some ["Opus"]) "Opus One Napa"
    (by decide) (by decide)

/-! ### C10 — vintage stripping in snapshot conversion -/

lemma pyReplaceAux_single_not_mem (a : Char) :
    ∀ fuel s, s.length ≤ fuel → a ∉ pyReplaceAux fuel s [a] [] := by
  intro fuel
  induction fuel with
  | zero =>
    intro s hs
    have : s = [] := List.eq_nil_of_length_eq_zero (Nat.le_zero.1 hs)
    subst this
    simp [pyReplaceAux]
  | succ fuel ih =>
    intro s hs
    match s with
    | [] => simp [pyReplaceAux]
    | c :: cs =>
      have hlen : cs.length ≤ fuel := Nat.succ_le_succ_iff.1 hs
      simp only [pyReplaceAux]
      by_cases hpre : ([a] : List Char) ≠ [] ∧ ([a] : List Char).isPrefixOf (c :: cs)
      · rw [if_pos hpre]
        simpa using ih cs hlen
      · rw [if_neg hpre]
        have hc : c ≠ a := by
          intro e
          exact hpre ⟨by simp, by simp [List.isPrefixOf, e]⟩
        intro hmem
        rcases List.mem_cons.1 hmem with h | h
        · exact hc h.symm
        · exact ih cs hlen h

lemma mem_pyStrip {a : Char} {s : List Char} (h : a ∈ pyStrip s) : a ∈ s := by
  unfold pyStrip at h
  rw [List.mem_reverse] at h
  have h2 := (List.dropWhile_sublist (l := (s.dropWhile isPySpace).reverse) isPySpace).subset h
  rw [List.mem_reverse] at h2
  exact (List.dropWhile_sublist (l := s) isPySpace).subset h2

lemma mem_of_singleton_infix {a : Char} {l : List Char}
    (h : a ∈ l) : [a] <:+: l := by
  obtain ⟨s, t, rfl⟩ := List.append_of_mem h
  exact ⟨s, t, by simp⟩

/-- C10 (amended): the vintage-stripping step deletes the leftmost
non-overlapping occurrences of `"<v> "` and then of `"<v>"`; when the
vintage string is a single character — in particular the non-vintage
sentinel `1` — this removes every occurrence, so a snapshot with
vintage `1` converts to a record whose name contains no `'1'` at all
(e.g. `"1er Cru"` becomes `"er Cru"`); for multi-digit vintages a
removal can splice the surrounding text into a new occurrence, which
is not removed. -/
theorem convert_strip_vintage_one (ws : WineSearcherWine) (idn : Nat) (w : Wine)
    (hv : ws.vintage = 1) (h : convert_wine_searcher_to_wine ws idn = some w) :
    '1' ∉ w.name.data ∧ stripVintageFromName 1 "1er Cru" = "er Cru" := by
  refine ⟨?_, by decide⟩
  unfold convert_wine_searcher_to_wine at h
  cases hn : ws.name with
  | none => rw [hn] at h; exact absurd h (by simp)
  | some name0 =>
    rw [hn] at h
    have hw : w.name = stripVintageFromName ws.vintage name0 := by
      cases h
      rfl
    rw [hw, hv]
    unfold stripVintageFromName
    by_cases hcond : (1 : Int) ≠ 0 ∧ isSubstr (toString (1 : Int)).data name0.data
    · rw [if_pos hcond]
      intro hmem
      have hmem2 := mem_pyStrip (a := '1')
        (s := (pyReplaceStr (pyReplaceStr name0 (toString (1 : Int) ++ " ") "")
          (toString (1 : Int)) "").data) hmem
      exact pyReplaceAux_single_not_mem '1' _ _ (le_refl _) hmem2
    · rw [if_neg hcond]
      intro hmem
      exact hcond ⟨by decide, by
        simpa [isSubstr] using mem_of_singleton_infix hmem⟩

/-- C10 (witness): conversion at the concrete snapshot
`name = "1er Cru"`, `vintage = 1`. -/
theorem convert_strip_vintage_one_witness :
    '1' ∉ "er Cru".data ∧ stripVintageFromName 1 "1er Cru" = "er Cru" :=
  convert_strip_vintage_one { id := "x", vintage := 1, name := some "1er Cru" } 0
    { id := 0, name := "er Cru", vintage := some 1, wine_searcher_id := some "x" }
    rfl (by decide)

/-- C10 (counterexample): for the snapshot name `"22015015"` with
vintage `2015`, deleting the single occurrence of `"2015"` splices the
remaining characters into `"2015"` again — the vintage string occurs
in the original name and still occurs in the converted record's name,
refuting "removes every occurrence". -/
theorem convert_vintage_strip_cex :
    (convert_wine_searcher_to_wine
        { id := "1_2015", vintage := 2015, name := some "22015015" } 0).map
      (fun w => w.name) = some "2015" ∧
    isSubstr "2015".data "22015015".data = true ∧
    isSubstr "2015".data "2015".data = true := by
  refine ⟨by decide, by decide, by decide⟩

/-! ### C3 — catalog matcher ranking -/

lemma addUnique_ne_nil (acc : List Wine) (item : Wine) : addUnique acc item ≠ [] := by
  unfold addUnique
  split
  · intro hnil
    subst hnil
    simp_all
  · simp

lemma foldl_addUnique_head (l : List Wine) :
    ∀ acc, acc ≠ [] → (l.foldl addUnique acc).head? = acc.head? := by
  induction l with
  | nil => intro acc _; rfl
  | cons a l ih =>
    intro acc h
    rw [List.foldl_cons, ih _ (addUnique_ne_nil acc a)]
    unfold addUnique
    split
    · rfl
    · cases acc with
      | nil => exact absurd rfl h
      | cons b bs => simp

lemma foldl_addUnique_nil_head (l : List Wine) :
    (l.foldl addUnique []).head? = l.head? := by
  cases l with
  | nil => rfl
  | cons a l =>
    rw [List.foldl_cons]
    have h1 : addUnique [] a = [a] := rfl
    rw [h1, foldl_addUnique_head l [a] (by simp)]
    rfl

lemma foldl_addUnique_eq_nil_iff (l : List Wine) :
    ∀ acc, l.foldl addUnique acc = [] ↔ acc = [] ∧ l = [] := by
  induction l with
  | nil => intro acc; simp
  | cons a l ih =>
    intro acc
    rw [List.foldl_cons, ih]
    constructor
    · rintro ⟨h1, _⟩
      exact absurd h1 (addUnique_ne_nil acc a)
    · rintro ⟨_, h2⟩
      cases h2

lemma mem_foldl_addUnique (l : List Wine) :
    ∀ acc x, x ∈ l.foldl addUnique acc → x ∈ acc ∨ x ∈ l := by
  induction l with
  | nil => intro acc x h; exact Or.inl h
  | cons a l ih =>
    intro acc x h
    rw [List.foldl_cons] at h
    rcases ih _ x h with h | h
    · unfold addUnique at h
      split at h
      · exact Or.inl h
      · rcases List.mem_append.1 h with h | h
        · exact Or.inl h
        · right
          simp only [List.mem_singleton] at h
          simp [h]
    · exact Or.inr (List.mem_cons_of_mem _ h)

lemma vintageOk_some {w : Wine} {v : Int} (h : vintageOk (some v) w = true) :
    w.vintage = some v := by
  simpa [vintageOk] using h

/-- C3: the local matcher runs the three lookups (each filtered by
exact vintage equality when a vintage is given) and returns the
highest-priority match under exact > alias > substring ranking; it
returns `none` exactly when all three lookups are empty; any returned
wine satisfies the vintage filter. -/
theorem search_wine_from_db_ranking (db : List Wine) (name : String)
    (vintage : Option Int) :
    (search_wine_from_db db name vintage = none ↔
      exactMatches db name vintage = [] ∧ aliasMatches db name vintage = [] ∧
        substrMatches db name vintage = []) ∧
    (∀ w, (exactMatches db name vintage).head? = some w →
      search_wine_from_db db name vintage = some w) ∧
    (exactMatches db name vintage = [] →
      ∀ w, (aliasMatches db name vintage).head? = some w →
        search_wine_from_db db name vintage = some w) ∧
    (exactMatches db name vintage = [] → aliasMatches db name vintage = [] →
      search_wine_from_db db name vintage = (substrMatches db name vintage).head?) ∧
    (∀ w v, search_wine_from_db db name vintage = some w → vintage = some v →
      w.vintage = some v) := by
  have hdef : search_wine_from_db db name vintage =
      ((substrMatches db name vintage).foldl addUnique
        ((aliasMatches db name vintage).foldl addUnique
          (exactMatches db name vintage))).head? := rfl
  refine ⟨?_, ?_, ?_, ?_, ?_⟩
  · rw [hdef, List.head?_eq_none_iff, foldl_addUnique_eq_nil_iff,
      foldl_addUnique_eq_nil_iff]
    tauto
  · intro w hw
    have hE : exactMatches db name vintage ≠ [] := by
      intro hnil
      rw [hnil] at hw
      cases hw
    have hAE : (aliasMatches db name vintage).foldl addUnique
        (exactMatches db name vintage) ≠ [] := by
      rw [Ne, foldl_addUnique_eq_nil_iff]
      tauto
    rw [hdef, foldl_addUnique_head _ _ hAE, foldl_addUnique_head _ _ hE]
    exact hw
  · intro hE w hw
    have hA : aliasMatches db name vintage ≠ [] := by
      intro hnil
      rw [hnil] at hw
      cases hw
    have hAE : (aliasMatches db name vintage).foldl addUnique
        (exactMatches db name vintage) ≠ [] := by
      rw [Ne, foldl_addUnique_eq_nil_iff]
      tauto
    rw [hdef, foldl_addUnique_head _ _ hAE, hE, foldl_addUnique_nil_head]
    exact hw
  · intro hE hA
    rw [hdef, hE, hA]
    exact foldl_addUnique_nil_head _
  · intro w v hw hv
    subst hv
    have hmem : w ∈ (substrMatches db name (some v)).foldl addUnique
        ((aliasMatches db name (some v)).foldl addUnique
          (exactMatches db name (some v))) := by
      rw [hdef] at hw
      exact List.mem_of_mem_head? (by rw [hw]; rfl)
    rcases mem_foldl_addUnique _ _ _ hmem with hmem | hmem
    · rcases mem_foldl_addUnique _ _ _ hmem with hmem | hmem
      · unfold exactMatches at hmem
        exact vintageOk_some (of_decide_eq_true ((List.mem_filter.1 hmem).2)).1
      · unfold aliasMatches at hmem
        exact vintageOk_some (of_decide_eq_true ((List.mem_filter.1 hmem).2)).1
    · unfold substrMatches at hmem
      exact vintageOk_some (of_decide_eq_true ((List.mem_filter.1 hmem).2)).1

/-- C3 (witness): an exact match at a concrete catalog. -/
theorem search_wine_from_db_ranking_witness :
    search_wine_from_db [{ id := 1, name := "Opus One" }] "Opus One" none =
      some { id := 1, name := "Opus One" } :=
  (search_wine_from_db_ranking [{ id := 1, name := "Opus One" }] "Opus One"
    none).2.1 { id := 1, name := "Opus One" } (by decide)

/-! ### C1 — placeholder fallback of the resolution entry point -/

/-- C1: whenever the local matcher misses and the external-source
lookup yields no snapshot (not found, fetch error, or parse failure),
`search_wine` returns a (non-nil) record — a minimal placeholder
containing only the searched name and vintage, with every other data
field nil. -/
theorem search_wine_placeholder_fallback (db : List Wine) (n : String)
    (v : Option Int) (newId : Nat)
    (hdb : search_wine_from_db db n v = none) :
    ∃ w, search_wine db none n v newId = some w ∧
      w.name = n ∧ w.vintage = v ∧
      w.winery = none ∧ w.region = none ∧ w.country = none ∧ w.varietal = none ∧
      w.type = none ∧ w.price = none ∧ w.rating = none ∧
      w.wine_searcher_url = none ∧ w.average_price = none ∧ w.description = none ∧
      w.name_alias = none ∧ w.image_url = none ∧ w.wine_searcher_id = none ∧
      w.drinking_window = none ∧ w.food_pairings = none ∧ w.abv = none ∧
      w.tasting_notes = none ∧ w.winemaker_notes = none ∧
      w.professional_reviews = none := by
  refine ⟨create_wine { name := n, vintage := v } db newId, ?_, rfl, rfl, rfl, rfl,
    rfl, rfl, rfl, rfl, rfl, rfl, rfl, rfl, rfl, rfl, rfl, rfl, rfl, rfl, rfl, rfl,
    rfl⟩
  unfold search_wine
  rw [hdb]

/-- C1 (witness): the placeholder at a concrete name/vintage over an
empty catalog. -/
theorem search_wine_placeholder_fallback_witness :
    ∃ w, search_wine [] none "Margaux" (some 2019) 7 = some w ∧
      w.name = "Margaux" ∧ w.vintage = some 2019 ∧
      w.winery = none ∧ w.region = none ∧ w.country = none ∧ w.varietal = none ∧
      w.type = none ∧ w.price = none ∧ w.rating = none ∧
      w.wine_searcher_url = none ∧ w.average_price = none ∧ w.description = none ∧
      w.name_alias = none ∧ w.image_url = none ∧ w.wine_searcher_id = none ∧
      w.drinking_window = none ∧ w.food_pairings = none ∧ w.abv = none ∧
      w.tasting_notes = none ∧ w.winemaker_notes = none ∧
      w.professional_reviews = none :=
  search_wine_placeholder_fallback [] "Margaux" (some 2019) 7 (by decide)

/-! ### C6 — per-card error isolation in offer parsing -/

lemma length_filterMap_add_skipped {α β : Type} [DecidableEq β]
    (f : α → Option β) (l : List α) :
    (l.filterMap f).length + (l.filter (fun a => f a = none)).length = l.length := by
  induction l with
  | nil => rfl
  | cons a l ih =>
    cases hf : f a with
    | none =>
      have h1 : List.filterMap f (a :: l) = List.filterMap f l := by
        simp [List.filterMap_cons, hf]
      have h2 : List.filter (fun x => f x = none) (a :: l) =
          a :: List.filter (fun x => f x = none) l := by
        simp [List.filter_cons, hf]
      rw [h1, h2]
      simp only [List.length_cons]
      omega
    | some b =>
      have h1 : List.filterMap f (a :: l) = b :: List.filterMap f l := by
        simp [List.filterMap_cons, hf]
      have h2 : List.filter (fun x => f x = none) (a :: l) =
          List.filter (fun x => f x = none) l := by
        simp [List.filter_cons, hf]
      rw [h1, h2]
      simp only [List.length_cons]
      omega

/-- C6 (amended): for every non-auto-expanded offers sub-tree, a card
whose sub-extraction throws (for example a price text that is not
parseable as a number after stripping `$` and `,`; a purely numeric
price text without any currency symbol parses and is kept) is skipped
without adding a partial card, parsing continues with the remaining
cards, and the number of offers returned equals the number of cards
minus the number of skipped cards. -/
theorem parse_offers_html_skip_count (t : OffersTree) (ht : t.autoExpanded = false)
    (res : List WineSearcherOffer × Int)
    (h : parse_offers_html (some t) = some res) :
    res.1.length + (t.cards.filter (fun c => parse_offer_card c = none)).length =
      t.cards.length ∧
    (∀ c ∈ t.cards, ∀ o, parse_offer_card c = some o → o ∈ res.1) ∧
    (∀ o ∈ res.1, ∃ c ∈ t.cards, parse_offer_card c = some o) := by
  have h1 : res.1 = t.cards.filterMap parse_offer_card := by
    have h' : (if t.autoExpanded = true then some ([], (0 : Int))
        else match t.countText with
          | none => some (t.cards.filterMap parse_offer_card, (0 : Int))
          | some s =>
            match (pySplitWs s.data).head? with
            | none => none
            | some tok =>
              match pyInt (String.mk tok) with
              | none => none
              | some n => some (t.cards.filterMap parse_offer_card, n)) = some res := h
    rw [ht] at h'
    simp only [Bool.false_eq_true, if_false] at h'
    split at h'
    · cases h'
      rfl
    · split at h'
      · cases h'
      · split at h'
        · cases h'
        · cases h'
          rfl
  refine ⟨?_, ?_, ?_⟩
  · rw [h1]
    exact length_filterMap_add_skipped parse_offer_card t.cards
  · intro c hc o ho
    rw [h1]
    exact List.mem_filterMap.2 ⟨c, hc, ho⟩
  · intro o ho
    rw [h1] at ho
    exact List.mem_filterMap.1 ho

/-- C6 (witness): a card whose price text fails numeric parsing is
skipped and the offer count is cards minus skipped. -/
theorem parse_offers_html_skip_count_witness :
    (([] : List WineSearcherOffer).length +
      ([({ priceDetail := some "€10" } : OfferCard)].filter
        (fun c => parse_offer_card c = none)).length = 1) :=
  (parse_offers_html_skip_count { countText := none, cards := [{ priceDetail := some "€10" }] }
    rfl ([], 0) (by decide)).1

/-- C6 (counterexample): a card whose price text `"100"` has no
currency symbol at all is parsed, not skipped — the returned offer
list has length 1, not 0. -/
theorem parse_offers_html_no_currency_cex :
    ('$' ∈ "100".data → False) ∧
    (parse_offers_html
        (some { countText := some "1 offer", cards := [{ priceDetail := some "100" }] })).map
      (fun r => r.1.length) = some 1 := by
  refine ⟨by decide, by decide⟩

/-! ### C5 — missing mandatory name / external id -/

/-- C5 (code divergence): on a page with no top-level heading at all
(no heading text and no heading id attribute), `parse_wine_searcher_html`
does **not** treat the page as unparseable — it returns a snapshot with
nil name, nil external id, sentinel vintage 1 and composite id the
string `"None_1"` (Python formats the missing id as `"None"`). -/
theorem parse_wine_searcher_html_missing_heading :
    ∃ w, parse_wine_searcher_html (some ({} : Page)) = some w ∧
      w.name = none ∧ w.wine_searcher_id = none ∧ w.id = "None_1" ∧ w.vintage = 1 := by
  refine ⟨_, rfl, rfl, rfl, by decide, rfl⟩

/-! ### C7 — vintage extraction and composite snapshot id -/

/-- C7: the page parser derives the vintage from a four-digit path
segment of the canonical-URL meta tag; when the canonical URL is
absent, or has no such segment, the snapshot vintage is the
non-vintage sentinel 1; `str_to_vintage` maps the literal `"All"` to
1; and the snapshot's composite id is the external id and the vintage
joined by an underscore. -/
theorem parse_wine_searcher_html_vintage_id (p : Page) (w : WineSearcherWine)
    (h : parse_wine_searcher_html (some p) = some w) :
    (p.ogUrl = none → w.vintage = 1) ∧
    (∀ u, p.ogUrl = some u → findSlashFourDigits u.data = none → w.vintage = 1) ∧
    str_to_vintage (some "All") = some 1 ∧
    w.id = pyFormatOptInt w.wine_searcher_id ++ "_" ++ toString w.vintage := by
  have h' : (match extractHeadingId p.headingIdAttr with
      | none => none
      | some wineSearcherId =>
        match extractVintage p.ogUrl with
        | none => none
        | some vintage =>
          match parse_offers_html p.offersBlock with
          | none => (none : Option WineSearcherWine)
          | some offersRes =>
            some { id := pyFormatOptInt wineSearcherId ++ "_" ++ toString vintage
                   wine_searcher_id := wineSearcherId
                   vintage := vintage
                   name := p.headingText.map pyStripStr
                   url := p.ogUrl
                   description := _extract_description p.descriptionTexts
                   region := p.regionMeta
                   region_image := none
                   origin := p.originMeta
                   grape_variety := p.varietalMeta
                   image := p.imageMeta
                   producer := p.producerTitle.map
                     (fun t => pyReplaceStr t "More information about " "")
                   average_price :=
                     if strOptTruthy p.descriptionMeta then
                       _extract_average_price (p.descriptionMeta.getD "")
                     else none
                   min_price := minUnitPrice offersRes.1
                   wine_type := (extractStylePair p.styleText).map (·.1)
                   wine_style := (extractStylePair p.styleText).map (·.2)
                   offers := offersRes.1
                   offers_count := offersRes.2 }) = some w := h
  rcases hid : extractHeadingId p.headingIdAttr with _ | wsid
  · rw [hid] at h'
    cases h'
  · rw [hid] at h'
    rcases hv : extractVintage p.ogUrl with _ | vint
    · rw [hv] at h'
      cases h'
    · rw [hv] at h'
      rcases ho : parse_offers_html p.offersBlock with _ | ores
      · rw [ho] at h'
        cases h'
      · rw [ho] at h'
        cases h'
        refine ⟨?_, ?_, by decide, rfl⟩
        · intro hurl
          unfold extractVintage at hv
          rw [hurl] at hv
          simp only [Option.none_bind] at hv
          cases hv
          rfl
        · intro u hurl hfind
          unfold extractVintage at hv
          rw [hurl] at hv
          simp only [Option.some_bind] at hv
          rw [hfind] at hv
          cases hv
          rfl

/-- C7 (witness): a concrete page whose canonical URL has no
four-digit path segment parses with vintage 1 and underscore-joined
id. -/
theorem parse_wine_searcher_html_vintage_id_witness :
    ∃ w, parse_wine_searcher_html
        (some ({ ogUrl := some "https://x.com/find/opus" } : Page)) = some w ∧
      w.vintage = 1 ∧
      w.id = pyFormatOptInt w.wine_searcher_id ++ "_" ++ toString w.vintage := by
  have hs : (parse_wine_searcher_html
      (some ({ ogUrl := some "https://x.com/find/opus" } : Page))).isSome = true := by
    decide
  refine ⟨(parse_wine_searcher_html
      (some ({ ogUrl := some "https://x.com/find/opus" } : Page))).get hs,
    (Option.some_get hs).symm, ?_, ?_⟩
  · exact (parse_wine_searcher_html_vintage_id _ _
      (Option.some_get hs).symm).2.1 "https://x.com/find/opus" rfl (by decide)
  · exact (parse_wine_searcher_html_vintage_id _ _
      (Option.some_get hs).symm).2.2.2

end WineApp
